import Mathlib

/-!
Shallow embedding of `pygsheets/grid_range.py` (classes `Address` and
`GridRange`).  Python strings are modelled as lists of character codes
(`List Nat`), Python ints as `Int`, `None`-able ints as `Option Int`, and
raised exceptions as `Except Err`.  Python truthiness of an int-or-None
value (`if self._value[0]:`) is modelled by `truthyI`.
-/

namespace PyGSheets

/-- The exception kinds that appear in the source: `InvalidArgumentValue`,
`IncorrectCellLabel`, a failed `assert`, `NotImplementedError`, and the bare
`Exception` raised by `to_json`. -/
inductive Err where
  | invalidArgument
  | incorrectCellLabel
  | assertionError
  | notImplemented
  | generic
deriving DecidableEq, Repr

/-- Character codes of a string literal (Python strings are code sequences). -/
def strCodes (s : String) : List Nat := s.data.map Char.toNat

/-- Model of `[A-Za-z]` on character codes. -/
def isAlphaCode (c : Nat) : Bool := decide ((65 ≤ c ∧ c ≤ 90) ∨ (97 ≤ c ∧ c ≤ 122))

/-- Model of `\d` on character codes. -/
def isDigitCode (c : Nat) : Bool := decide (48 ≤ c ∧ c ≤ 57)

/-- Model of `str.upper()` on one character code. -/
def toUpperCode (c : Nat) : Nat := if 97 ≤ c ∧ c ≤ 122 then c - 32 else c

/-- Model of `Address._MAGIC_NUMBER`. -/
def MAGIC_NUMBER : Nat := 64

/-- Python truthiness of an int-or-None value: `None` and `0` are falsy. -/
def truthyI : Option Int → Bool
  | none => false
  | some v => v != 0

/-- Extract the int from an int-or-None value (used only under a truthiness
guard, where the source has already established the value is an int). -/
def getI : Option Int → Int
  | none => 0
  | some v => v

/-- A fueled digit-producing loop: starting from `d`, repeatedly step down
with `step` while the counter is nonzero, prepending `out` of the counter
each round.  Any `fuel ≥ d` computes the loop exactly, provided
`step (d + 1) ≤ d` (the loops below satisfy this), and structural recursion
on the fuel keeps the definition kernel-reducible. -/
def loopDigits (step out : Nat → Nat) : Nat → Nat → List Nat
  | 0, _ => []
  | _ + 1, 0 => []
  | fuel + 1, d + 1 => loopDigits step out fuel (step (d + 1)) ++ [out (d + 1)]

/-- The counter update of the decimal loop behind `str(n)`. -/
def decStep (d : Nat) : Nat := d / 10

/-- The digit code produced by the decimal loop behind `str(n)`. -/
def decOut (d : Nat) : Nat := d % 10 + 48

/-- Model of `str(n)` for a natural number: decimal digit codes, most significant first. -/
def natDecCodes (n : Nat) : List Nat := loopDigits decStep decOut n n

/-- Model of `str(v)` for a Python int. -/
def strOfIntCodes (v : Int) : List Nat :=
  if v < 0 then 45 :: natDecCodes (-v).toNat else natDecCodes v.toNat

/-- Model of `int(s)` on a string of decimal digit codes. -/
def parseDigitsNat (ds : List Nat) : Nat :=
  ds.foldl (fun acc d => acc * 10 + (d - 48)) 0

/-- The counter update of the column-label loop in `Address._value_as_label`:
`(div, mod) = divmod(div, 26); if mod == 0: div -= 1`. -/
def colStep (d : Nat) : Nat := if d % 26 = 0 then d / 26 - 1 else d / 26

/-- The character code produced by one round of the column-label loop:
`chr(mod + 64)` after `if mod == 0: mod = 26`. -/
def colOut (d : Nat) : Nat :=
  if d % 26 = 0 then 26 + MAGIC_NUMBER else d % 26 + MAGIC_NUMBER

/-- The column-letter loop of `Address._value_as_label`: bijective base-26
digit codes, most significant first. -/
def colLetterCodes (n : Nat) : List Nat := loopDigits colStep colOut n n

/-- The column-parsing loop of `Address._label_to_coordinates`:
`for i, c in enumerate(reversed(column_label)): col += (ord(c) - 64) * 26 ** i`,
here with the running exponent made explicit. -/
def parseColAux : Nat → List Nat → Nat
  | _, [] => 0
  | i, c :: rest => (c - MAGIC_NUMBER) * 26 ^ i + parseColAux (i + 1) rest

/-- Column value of a letter-code list (the full loop, starting at `i = 0`
over the reversed label). -/
def parseColLetters (letters : List Nat) : Nat := parseColAux 0 letters.reverse

/-- Model of `Address`: a `(row, col)` pair of int-or-None components plus the
`allow_non_single` flag. -/
structure Address where
  row : Option Int
  col : Option Int
  allow_non_single : Bool
deriving DecidableEq, Repr

/-- Model of `Address.__bool__`: false only when both components are `None`. -/
def Address.truthy (a : Address) : Bool := !(a.row.isNone && a.col.isNone)

/-- Model of `Address._validate`.  The first condition reproduces the source line
verbatim, which tests `self._value[0] is None` twice (never `[1]`). -/
def Address.validate (a : Address) : Except Err Unit := do
  if !a.allow_non_single && (a.row.isNone || a.row.isNone) then
    throw Err.invalidArgument
  if truthyI a.row then
    if getI a.row < 1 then throw Err.invalidArgument
  if truthyI a.col then
    if getI a.col < 1 then throw Err.invalidArgument
  pure ()

/-- Model of `Address._value_as_label`: validate, then column letters followed by the
row's decimal digits (either part omitted when its component is falsy). -/
def valueAsLabel (a : Address) : Except Err (List Nat) := do
  a.validate
  let row_label := if truthyI a.row then strOfIntCodes (getI a.row) else []
  let column_label := if truthyI a.col then colLetterCodes (getI a.col).toNat else []
  pure (column_label ++ row_label)

/-- Model of `Address._label_to_coordinates`.  The source regex
`([A-Za-z]*)(\d*)` is unanchored with starred groups: it always matches,
taking the maximal leading letter run, then the maximal digit run, and
ignoring any remainder. -/
def labelToCoordinates (allow_non_single : Bool) (label : List Nat) :
    Except Err (Option Int × Option Int) := do
  let column_label := (label.takeWhile isAlphaCode).map toUpperCode
  let digitStr := (label.dropWhile isAlphaCode).takeWhile isDigitCode
  let col : Option Int :=
    if column_label.isEmpty then none else some (parseColLetters column_label)
  let row : Option Int :=
    if digitStr.isEmpty then none else some (parseDigitsNat digitStr)
  if !allow_non_single && !(truthyI row && truthyI col) then
    throw Err.incorrectCellLabel
  pure (row, col)

/-- The run-time type dispatch of `Address.__init__`: a label string, a
2-tuple, `None` (or any falsy value), or another `Address`. -/
inductive AddrInput where
  | lab (s : List Nat)
  | tup (r c : Option Int)
  | noneV
  | addr (a : Address)
deriving Repr

/-- Model of `Address.__init__`. -/
def Address.make (value : AddrInput) (allow_non_single : Bool) : Except Err Address := do
  match value with
  | .lab s =>
      let rc ← labelToCoordinates allow_non_single s
      pure ⟨rc.1, rc.2, allow_non_single⟩
  | .tup r c =>
      let a : Address := ⟨r, c, allow_non_single⟩
      a.validate
      pure a
  | .noneV =>
      if allow_non_single then
        let a : Address := ⟨none, none, allow_non_single⟩
        a.validate
        pure a
      else
        throw Err.incorrectCellLabel
  | .addr b =>
      if !b.truthy && allow_non_single then
        let a : Address := ⟨none, none, allow_non_single⟩
        a.validate
        pure a
      else
        let l ← valueAsLabel b
        let rc ← labelToCoordinates allow_non_single l
        pure ⟨rc.1, rc.2, allow_non_single⟩

/-- Model of `Address.__sub__` with a 2-tuple operand: component-wise subtraction fed
back through the tuple constructor (with `allow_non_single` left at its
default `False`).  A `None` component would be a Python `TypeError`. -/
def Address.subTup (a : Address) (o : Int × Int) : Except Err Address :=
  match a.row, a.col with
  | some r, some c => Address.make (.tup (some (r - o.1)) (some (c - o.2))) false
  | _, _ => throw Err.generic

/-- The worksheet collaborator: the four read-only fields this core uses. -/
structure Worksheet where
  id : Int
  title : List Nat
  rows : Int
  cols : Int
deriving DecidableEq, Repr

/-- Model of `GridRange`: a live worksheet (or `None`), the detached `_worksheet_title`
and `_worksheet_id` fields, the `_label` field, and the two `Address`es. -/
structure GridRange where
  worksheet : Option Worksheet
  worksheet_title_f : Option (List Nat)
  worksheet_id_f : Option Int
  label : Option (List Nat)
  start : Address
  endA : Address
deriving DecidableEq, Repr

/-- Model of `GridRange.worksheet_id` property getter. -/
def worksheetId (g : GridRange) : Option Int :=
  match g.worksheet with
  | some w => some w.id
  | none => g.worksheet_id_f

/-- Model of `GridRange.worksheet_title` property getter. -/
def worksheetTitle (g : GridRange) : Option (List Nat) :=
  match g.worksheet with
  | some w => some w.title
  | none => g.worksheet_title_f

/-- Model of `GridRange.worksheet_id` property setter. -/
def setWorksheetId (g : GridRange) (v : Int) : Except Err GridRange :=
  match g.worksheet with
  | some w => if w.id = v then pure g else throw Err.invalidArgument
  | none => pure { g with worksheet_id_f := some v }

/-- Model of `GridRange._calculate_label`: `<title or ''>` plus `!start:end` when both
ends are truthy. -/
def calculateLabel (g : GridRange) : Except Err GridRange := do
  let t := (worksheetTitle g).getD []
  if g.start.truthy && g.endA.truthy then
    let ls ← valueAsLabel g.start
    let le ← valueAsLabel g.endA
    pure { g with label := some (t ++ [33] ++ ls ++ [58] ++ le) }
  else
    pure { g with label := some t }

/-- Model of `GridRange.worksheet_title` property setter (early return, without
recomputing the label, when a live worksheet already has this title). -/
def setWorksheetTitle (g : GridRange) (v : List Nat) : Except Err GridRange :=
  match g.worksheet with
  | some w => if w.title = v then pure g else throw Err.invalidArgument
  | none => calculateLabel { g with worksheet_title_f := some v }

/-- Model of `Address.__setitem__ 0` (in-place row replacement). -/
def setRow (a : Address) (v : Option Int) : Address := { a with row := v }

/-- Model of `Address.__setitem__ 1` (in-place column replacement). -/
def setCol (a : Address) (v : Option Int) : Address := { a with col := v }

/-- Model of `GridRange._apply_index_constraints` with the default `based_on='start'`
(the only value any call site in the source passes).  Returns the
post-mutation state together with the raised exception, if any, since the
source mutates `self` before raising on the mismatch path. -/
def applyIndexConstraints (g : GridRange) : GridRange × Option Err :=
  if !g.start.truthy && !g.endA.truthy then
    (g, none)
  else
    let g1 :=
      if !g.start.truthy then
        if g.endA.truthy then { g with start := g.endA } else g
      else if g.start.row.isNone || g.endA.row.isNone then
        { g with start := setRow g.start none, endA := setRow g.endA none }
      else if g.start.col.isNone || g.endA.col.isNone then
        { g with start := setCol g.start none, endA := setCol g.endA none }
      else g
    if (truthyI g1.start.row && !truthyI g1.endA.row) ||
       (!truthyI g1.start.row && truthyI g1.endA.row) ||
       (truthyI g1.start.col && !truthyI g1.endA.col) ||
       (!truthyI g1.start.col && truthyI g1.endA.col) then
      ({ g1 with start := g1.start, endA := g1.start }, some Err.invalidArgument)
    else if g1.start.truthy && g1.endA.truthy && truthyI g1.start.row &&
            getI g1.endA.row < getI g1.start.row then
      (g1, some Err.assertionError)
    else if g1.start.truthy && g1.endA.truthy && truthyI g1.start.col &&
            getI g1.endA.col < getI g1.start.col then
      (g1, some Err.assertionError)
    else
      match calculateLabel g1 with
      | .ok g2 => (g2, none)
      | .error e => (g1, some e)

/-- Model of `_apply_index_constraints` as an exception-propagating step (for call
sites that only observe the exception, not the post-error state). -/
def applyIndexConstraintsE (g : GridRange) : Except Err GridRange :=
  match applyIndexConstraints g with
  | (g', none) => .ok g'
  | (_, some e) => .error e

/-- Python `str.split(sep)` on code lists. -/
def splitOn (sep : Nat) : List Nat → List (List Nat)
  | [] => [[]]
  | c :: rest =>
    if c = sep then [] :: splitOn sep rest
    else
      match splitOn sep rest with
      | [] => [[c]]
      | p :: ps => (c :: p) :: ps

/-- Model of `GridRange._calculate_addresses`: split the label on `!` (code 33) for
the title, then on `:` (code 58) for the two sub-labels, and re-apply the
index constraints. -/
def calculateAddresses (g : GridRange) : Except Err GridRange := do
  let label := g.label.getD []
  let g ← setWorksheetTitle g ((splitOn 33 label).headD [])
  let g := { g with start := ⟨none, none, true⟩, endA := ⟨none, none, true⟩ }
  let parts := splitOn 33 label
  let g ←
    if parts.length > 1 then
      let rem := (parts.drop 1).headD []
      if rem.contains 58 then do
        let s ← Address.make (.lab ((splitOn 58 rem).headD [])) true
        let e ← Address.make (.lab (((splitOn 58 rem).drop 1).headD [])) true
        pure { g with start := s, endA := e }
      else do
        let s ← Address.make (.lab rem) true
        pure { g with start := s }
    else pure g
  applyIndexConstraintsE g

/-- The wire JSON object: `sheetId` and the four optional 0-based indices. -/
structure RangeJson where
  sheetId : Option Int
  startRowIndex : Option Int
  endRowIndex : Option Int
  startColumnIndex : Option Int
  endColumnIndex : Option Int
deriving DecidableEq, Repr

/-- Model of `GridRange.set_json`: apply the sheet id, add 1 to the two start indices,
keep the end indices unshifted, rebuild the addresses and the label. -/
def setJson (g : GridRange) (j : RangeJson) : Except Err GridRange := do
  let g ←
    match j.sheetId with
    | some sid => setWorksheetId g sid
    | none => pure g
  let start_row_idx := j.startRowIndex.map (· + 1)
  let start_col_idx := j.startColumnIndex.map (· + 1)
  let s ← Address.make (.tup start_row_idx start_col_idx) true
  let e ← Address.make (.tup j.endRowIndex j.endColumnIndex) true
  calculateLabel { g with start := s, endA := e }

/-- Model of `GridRange.to_json`.  The index arithmetic reproduces the source lines
verbatim: `startRowIndex = start[0] - 1`, `startColumnIndex = start[0]`,
`endRowIndex = end[0] - 1`, `endColumnIndex = end[1]`. -/
def toJson (g : GridRange) : Except Err RangeJson := do
  if (worksheetId g).isNone then throw Err.generic
  let g ← calculateAddresses g
  pure {
    sheetId := worksheetId g
    startRowIndex := if truthyI g.start.row then some (getI g.start.row - 1) else none
    startColumnIndex := if truthyI g.start.col then some (getI g.start.row) else none
    endRowIndex := if truthyI g.endA.row then some (getI g.endA.row - 1) else none
    endColumnIndex := if truthyI g.endA.col then some (getI g.endA.col) else none
  }

/-- Model of `GridRange.__init__`: build the two addresses (with unbound axes
allowed), then dispatch on `namedjson` / truthy `label` / explicit indices. -/
def gridRangeInit (label : Option (List Nat)) (worksheet : Option Worksheet)
    (start endv : AddrInput) (worksheet_title : Option (List Nat))
    (worksheet_id : Option Int) (namedjson : Option RangeJson) :
    Except Err GridRange := do
  let s ← Address.make start true
  let e ← Address.make endv true
  let g : GridRange :=
    { worksheet := worksheet
      worksheet_title_f := worksheet_title
      worksheet_id_f := worksheet_id
      label := label
      start := s
      endA := e }
  match namedjson with
  | some j => setJson g j
  | none =>
    if (label.getD []).isEmpty then do
      let g ← applyIndexConstraintsE g
      calculateLabel g
    else
      calculateAddresses g

/-- Model of `GridRange.get_bounded_indexes`: requires a worksheet; a falsy component
defaults to 0 for the start and to the worksheet's row/column count for the
end (reproducing the source's `start_r if start_r else 0`). -/
def getBoundedIndexes (g : GridRange) : Except Err (Address × Address) := do
  match g.worksheet with
  | none => throw Err.invalidArgument
  | some ws =>
    let sr := if g.start.truthy then g.start.row else none
    let sc := if g.start.truthy then g.start.col else none
    let er := if g.endA.truthy then g.endA.row else none
    let ec := if g.endA.truthy then g.endA.col else none
    let start_r : Int := if truthyI sr then getI sr else 0
    let start_c : Int := if truthyI sc then getI sc else 0
    let end_r : Int := if truthyI er then getI er else ws.rows
    let end_c : Int := if truthyI ec then getI ec else ws.cols
    let a1 ← Address.make (.tup (some start_r) (some start_c)) false
    let a2 ← Address.make (.tup (some end_r) (some end_c)) false
    pure (a1, a2)

/-- Model of `GridRange.height`: `end[0] - start[0] + 1` over the bounded indexes. -/
def heightOf (g : GridRange) : Except Err Int := do
  let (s, e) ← getBoundedIndexes g
  pure (getI e.row - getI s.row + 1)

/-- Model of `GridRange.width`: `end[1] - start[1] + 1` over the bounded indexes. -/
def widthOf (g : GridRange) : Except Err Int := do
  let (s, e) ← getBoundedIndexes g
  pure (getI e.col - getI s.col + 1)

/-- The wire JSON of the round-trip test:
`{"sheetId": 0, "startRowIndex": 0, "endRowIndex": 3, "startColumnIndex": 0, "endColumnIndex": 3}`. -/
def jsonRT : RangeJson := ⟨some 0, some 0, some 3, some 0, some 3⟩

/-- A worksheet titled `Sheet1` with 100 rows and 26 columns. -/
def wsSheet1 : Worksheet := ⟨7, strCodes "Sheet1", 100, 26⟩

/-- Well-formedness of an address as `GridRange` stores them: built with
`allow_non_single=True` and with validated (hence non-negative) components.
Every address reachable inside a `GridRange` satisfies this, since the
constructors validate and the in-place updates only write `None`. -/
def AddrOk (a : Address) : Prop :=
  a.allow_non_single = true ∧ (∀ v, a.row = some v → 0 ≤ v) ∧
    (∀ v, a.col = some v → 0 ≤ v)

@[simp] theorem truthyI_none : truthyI none = false := rfl

@[simp] theorem truthyI_some (v : Int) : truthyI (some v) = (v != 0) := rfl

@[simp] theorem getI_none : getI none = 0 := rfl

@[simp] theorem getI_some (v : Int) : getI (some v) = v := rfl

theorem bne_zero_of_pos {v : Int} (h : 1 ≤ v) : (v != 0) = true := by
  simp only [bne_iff_ne, ne_eq]
  omega

/-- The fueled loop computes the same list for any sufficient fuel, as long as
the step decreases the counter. -/
theorem loopDigits_stable (step out : Nat → Nat) (hstep : ∀ d, step (d + 1) ≤ d) :
    ∀ f f' d, d ≤ f → d ≤ f' → loopDigits step out f d = loopDigits step out f' d := by
  intro f
  induction f with
  | zero =>
    intro f' d hd _
    have hd0 : d = 0 := by omega
    subst hd0
    cases f' <;> rfl
  | succ f ih =>
    intro f' d hd hd'
    cases d with
    | zero => cases f' <;> rfl
    | succ e =>
      cases f' with
      | zero => omega
      | succ g =>
        simp only [loopDigits]
        congr 1
        exact ih g (step (e + 1)) (le_trans (hstep e) (by omega))
          (le_trans (hstep e) (by omega))

/-- Unfolding rule for the canonical (fuel = counter) fueled loop. -/
theorem loopCanon_succ (step out : Nat → Nat) (hstep : ∀ d, step (d + 1) ≤ d) (d : Nat) :
    loopDigits step out (d + 1) (d + 1) =
      loopDigits step out (step (d + 1)) (step (d + 1)) ++ [out (d + 1)] := by
  simp only [loopDigits]
  congr 1
  exact loopDigits_stable step out hstep d (step (d + 1)) (step (d + 1))
    (hstep d) le_rfl

theorem decStep_le (d : Nat) : decStep (d + 1) ≤ d := by
  simp only [decStep]
  omega

theorem colStep_le (d : Nat) : colStep (d + 1) ≤ d := by
  simp only [colStep]
  split <;> omega

theorem natDecCodes_succ (d : Nat) :
    natDecCodes (d + 1) = natDecCodes ((d + 1) / 10) ++ [(d + 1) % 10 + 48] :=
  loopCanon_succ decStep decOut decStep_le d

theorem colLetterCodes_succ (d : Nat) :
    colLetterCodes (d + 1) = colLetterCodes (colStep (d + 1)) ++ [colOut (d + 1)] :=
  loopCanon_succ colStep colOut colStep_le d

theorem parseDigitsNat_snoc (ds : List Nat) (d : Nat) :
    parseDigitsNat (ds ++ [d]) = parseDigitsNat ds * 10 + (d - 48) := by
  simp [parseDigitsNat, List.foldl_append]

/-- Parsing inverts decimal printing: `int(str(n)) = n`. -/
theorem parseDigitsNat_natDecCodes (n : Nat) : parseDigitsNat (natDecCodes n) = n := by
  induction n using Nat.strong_induction_on with
  | _ n ih =>
    match n with
    | 0 => rfl
    | d + 1 =>
      rw [natDecCodes_succ, parseDigitsNat_snoc]
      rw [ih ((d + 1) / 10) (by omega)]
      omega

/-- Every code printed for a decimal digit is an ASCII digit. -/
theorem natDecCodes_mem (n : Nat) : ∀ c ∈ natDecCodes n, 48 ≤ c ∧ c ≤ 57 := by
  induction n using Nat.strong_induction_on with
  | _ n ih =>
    match n with
    | 0 => intro c hc; cases hc
    | d + 1 =>
      rw [natDecCodes_succ]
      intro c hc
      rcases List.mem_append.mp hc with h | h
      · exact ih ((d + 1) / 10) (by omega) c h
      · have : c = (d + 1) % 10 + 48 := List.mem_singleton.mp h
        omega

theorem natDecCodes_ne_nil {n : Nat} (h : 1 ≤ n) : natDecCodes n ≠ [] := by
  match n, h with
  | d + 1, _ =>
    rw [natDecCodes_succ]
    simp

theorem parseColAux_shift (zs : List Nat) : ∀ i, parseColAux (i + 1) zs = 26 * parseColAux i zs := by
  induction zs with
  | nil => intro i; rfl
  | cons c rest ih =>
    intro i
    simp only [parseColAux, ih (i + 1), pow_succ]
    ring

theorem parseColLetters_snoc (ys : List Nat) (c : Nat) :
    parseColLetters (ys ++ [c]) = 26 * parseColLetters ys + (c - MAGIC_NUMBER) := by
  simp only [parseColLetters, List.reverse_append, List.reverse_cons, List.reverse_nil,
    List.nil_append, List.cons_append, parseColAux, pow_zero, mul_one]
  rw [parseColAux_shift]
  omega

/-- Parsing inverts the bijective base-26 column printing. -/
theorem parseColLetters_colLetterCodes (n : Nat) :
    parseColLetters (colLetterCodes n) = n := by
  induction n using Nat.strong_induction_on with
  | _ n ih =>
    match n with
    | 0 => rfl
    | d + 1 =>
      rw [colLetterCodes_succ, parseColLetters_snoc]
      by_cases h : (d + 1) % 26 = 0
      · have h26 : 26 ≤ d + 1 := by omega
        simp only [colStep, colOut, if_pos h]
        rw [ih ((d + 1) / 26 - 1) (by omega)]
        simp only [MAGIC_NUMBER]
        omega
      · simp only [colStep, colOut, if_neg h]
        rw [ih ((d + 1) / 26) (by omega)]
        simp only [MAGIC_NUMBER]
        omega

/-- Every code printed for a column is an upper-case ASCII letter. -/
theorem colLetterCodes_mem (n : Nat) : ∀ c ∈ colLetterCodes n, 65 ≤ c ∧ c ≤ 90 := by
  induction n using Nat.strong_induction_on with
  | _ n ih =>
    match n with
    | 0 => intro c hc; cases hc
    | d + 1 =>
      rw [colLetterCodes_succ]
      intro c hc
      rcases List.mem_append.mp hc with h | h
      · exact ih (colStep (d + 1)) (by have := colStep_le d; omega) c h
      · have hc' : c = colOut (d + 1) := List.mem_singleton.mp h
        subst hc'
        simp only [colOut, MAGIC_NUMBER]
        split <;> omega

theorem colLetterCodes_ne_nil {n : Nat} (h : 1 ≤ n) : colLetterCodes n ≠ [] := by
  match n, h with
  | d + 1, _ =>
    rw [colLetterCodes_succ]
    simp

theorem takeWhile_append_all {p : Nat → Bool} {xs : List Nat} (ys : List Nat)
    (h : ∀ x ∈ xs, p x = true) :
    (xs ++ ys).takeWhile p = xs ++ ys.takeWhile p := by
  induction xs with
  | nil => rfl
  | cons x xs ih =>
    have hx : p x = true := h x (by simp)
    simp only [List.cons_append, List.takeWhile_cons, hx, if_true]
    rw [ih (fun a ha => h a (by simp [ha]))]

theorem dropWhile_append_all {p : Nat → Bool} {xs : List Nat} (ys : List Nat)
    (h : ∀ x ∈ xs, p x = true) :
    (xs ++ ys).dropWhile p = ys.dropWhile p := by
  induction xs with
  | nil => rfl
  | cons x xs ih =>
    have hx : p x = true := h x (by simp)
    simp only [List.cons_append, List.dropWhile_cons, hx, if_true]
    exact ih (fun a ha => h a (by simp [ha]))

theorem takeWhile_eq_nil_all {p : Nat → Bool} {ys : List Nat}
    (h : ∀ x ∈ ys, p x = false) : ys.takeWhile p = [] := by
  cases ys with
  | nil => rfl
  | cons y ys => simp [List.takeWhile_cons, h y (by simp)]

theorem takeWhile_eq_self_all {p : Nat → Bool} {ys : List Nat}
    (h : ∀ x ∈ ys, p x = true) : ys.takeWhile p = ys := by
  induction ys with
  | nil => rfl
  | cons y ys ih =>
    simp only [List.takeWhile_cons, h y (by simp), if_true]
    rw [ih (fun a ha => h a (by simp [ha]))]

theorem dropWhile_eq_self_all {p : Nat → Bool} {ys : List Nat}
    (h : ∀ x ∈ ys, p x = false) : ys.dropWhile p = ys := by
  cases ys with
  | nil => rfl
  | cons y ys => simp [List.dropWhile_cons, h y (by simp)]

theorem map_toUpperCode_id {xs : List Nat} (h : ∀ x ∈ xs, x ≤ 90) :
    xs.map toUpperCode = xs := by
  induction xs with
  | nil => rfl
  | cons x xs ih =>
    have hx : x ≤ 90 := h x (by simp)
    simp only [List.map_cons]
    rw [ih (fun a ha => h a (by simp [ha]))]
    have : toUpperCode x = x := by
      simp only [toUpperCode]
      rw [if_neg]
      omega
    rw [this]

@[simp] theorem pure_eq_ok {α : Type} (a : α) : (pure a : Except Err α) = Except.ok a := rfl

@[simp] theorem bind_ok_eq {α β : Type} (a : α) (f : α → Except Err β) :
    Except.ok a >>= f = f a := rfl

@[simp] theorem bind_error_eq {α β : Type} (e : Err) (f : α → Except Err β) :
    (Except.error e : Except Err α) >>= f = Except.error e := rfl

@[simp] theorem throw_eq_error {α : Type} (e : Err) :
    (throw e : Except Err α) = Except.error e := rfl

theorem validate_pos_pos {r c : Int} (hr : 1 ≤ r) (hc : 1 ≤ c) (b : Bool) :
    Address.validate ⟨some r, some c, b⟩ = .ok () := by
  have h1 : (r != 0) = true := bne_zero_of_pos hr
  have h2 : (c != 0) = true := bne_zero_of_pos hc
  have h3 : ¬ r < 1 := by omega
  have h4 : ¬ c < 1 := by omega
  simp [Address.validate, h1, h2, h3, h4]

theorem validate_pos_none {r : Int} (hr : 1 ≤ r) (b : Bool) :
    Address.validate ⟨some r, none, b⟩ = .ok () := by
  have h1 : (r != 0) = true := bne_zero_of_pos hr
  have h3 : ¬ r < 1 := by omega
  simp [Address.validate, h1, h3]

theorem make_tup_pos_pos {r c : Int} (hr : 1 ≤ r) (hc : 1 ≤ c) (b : Bool) :
    Address.make (.tup (some r) (some c)) b = .ok ⟨some r, some c, b⟩ := by
  simp [Address.make, validate_pos_pos hr hc]

theorem make_tup_pos_none {r : Int} (hr : 1 ≤ r) (b : Bool) :
    Address.make (.tup (some r) none) b = .ok ⟨some r, none, b⟩ := by
  simp [Address.make, validate_pos_none hr]

theorem valueAsLabel_pos_pos {r c : Int} (hr : 1 ≤ r) (hc : 1 ≤ c) (b : Bool) :
    valueAsLabel ⟨some r, some c, b⟩ =
      .ok (colLetterCodes c.toNat ++ natDecCodes r.toNat) := by
  have h1 : (r != 0) = true := bne_zero_of_pos hr
  have h2 : (c != 0) = true := bne_zero_of_pos hc
  have h5 : ¬ r < 0 := by omega
  simp [valueAsLabel, validate_pos_pos hr hc, h1, h2, strOfIntCodes, h5]

theorem valueAsLabel_pos_none {r : Int} (hr : 1 ≤ r) (b : Bool) :
    valueAsLabel ⟨some r, none, b⟩ = .ok (natDecCodes r.toNat) := by
  have h1 : (r != 0) = true := bne_zero_of_pos hr
  have h5 : ¬ r < 0 := by omega
  simp [valueAsLabel, validate_pos_none hr, h1, strOfIntCodes, h5]

theorem isAlphaCode_of_letter {x : Nat} (h : 65 ≤ x ∧ x ≤ 90) : isAlphaCode x = true := by
  simp only [isAlphaCode, decide_eq_true_eq]
  omega

theorem isAlphaCode_of_digit {x : Nat} (h : 48 ≤ x ∧ x ≤ 57) : isAlphaCode x = false := by
  simp only [isAlphaCode, decide_eq_false_iff_not]
  omega

theorem isDigitCode_of_digit {x : Nat} (h : 48 ≤ x ∧ x ≤ 57) : isDigitCode x = true := by
  simp only [isDigitCode, decide_eq_true_eq]
  omega

/-- Parsing a printed label of a fully bound positive address recovers its
coordinates exactly (the letter run is the column, the digit run the row). -/
theorem labelToCoordinates_print (r c : Nat) (hr : 1 ≤ r) (hc : 1 ≤ c) (allow : Bool) :
    labelToCoordinates allow (colLetterCodes c ++ natDecCodes r) =
      .ok (some (r : Int), some (c : Int)) := by
  have halpha : ∀ x ∈ colLetterCodes c, isAlphaCode x = true :=
    fun x hx => isAlphaCode_of_letter (colLetterCodes_mem c x hx)
  have hndalpha : ∀ x ∈ natDecCodes r, isAlphaCode x = false :=
    fun x hx => isAlphaCode_of_digit (natDecCodes_mem r x hx)
  have hdigit : ∀ x ∈ natDecCodes r, isDigitCode x = true :=
    fun x hx => isDigitCode_of_digit (natDecCodes_mem r x hx)
  have hcne : (colLetterCodes c).isEmpty = false := by
    cases h : colLetterCodes c with
    | nil => exact absurd h (colLetterCodes_ne_nil hc)
    | cons a l => rfl
  have hrne : (natDecCodes r).isEmpty = false := by
    cases h : natDecCodes r with
    | nil => exact absurd h (natDecCodes_ne_nil hr)
    | cons a l => rfl
  have hrpos : ((r : Int) != 0) = true := bne_zero_of_pos (by exact_mod_cast hr)
  unfold labelToCoordinates
  rw [takeWhile_append_all _ halpha, takeWhile_eq_nil_all hndalpha, List.append_nil]
  rw [dropWhile_append_all _ halpha, dropWhile_eq_self_all hndalpha]
  rw [takeWhile_eq_self_all hdigit]
  rw [map_toUpperCode_id (fun x hx => (colLetterCodes_mem c x hx).2)]
  simp [hcne, hrne, parseColLetters_colLetterCodes, parseDigitsNat_natDecCodes, hrpos]
  exact fun _ => by omega

/-- **C3** (confirmed).  For every bound coordinate pair `(r, c)` with
`r, c ≥ 1`, constructing `Address((r, c))` succeeds, its label is the column
letters followed by the row digits, and re-parsing that label yields exactly
`(r, c)` again; and the column encoding maps 1 ↦ "A", 26 ↦ "Z", 27 ↦ "AA",
52 ↦ "AZ", 53 ↦ "BA", 702 ↦ "ZZ", 703 ↦ "AAA". -/
theorem C3_label_round_trip (r c : Int) (hr : 1 ≤ r) (hc : 1 ≤ c) :
    Address.make (.tup (some r) (some c)) false = .ok ⟨some r, some c, false⟩ ∧
    valueAsLabel ⟨some r, some c, false⟩ =
      .ok (colLetterCodes c.toNat ++ natDecCodes r.toNat) ∧
    Address.make (.lab (colLetterCodes c.toNat ++ natDecCodes r.toNat)) false =
      .ok ⟨some r, some c, false⟩ ∧
    (colLetterCodes 1 = strCodes "A" ∧ colLetterCodes 26 = strCodes "Z" ∧
     colLetterCodes 27 = strCodes "AA" ∧ colLetterCodes 52 = strCodes "AZ" ∧
     colLetterCodes 53 = strCodes "BA" ∧ colLetterCodes 702 = strCodes "ZZ" ∧
     colLetterCodes 703 = strCodes "AAA") := by
  refine ⟨make_tup_pos_pos hr hc false, valueAsLabel_pos_pos hr hc false, ?_, by decide⟩
  have h := labelToCoordinates_print r.toNat c.toNat (by omega) (by omega) false
  have hrn : ((r.toNat : Int)) = r := Int.toNat_of_nonneg (by omega)
  have hcn : ((c.toNat : Int)) = c := Int.toNat_of_nonneg (by omega)
  rw [hrn, hcn] at h
  simp [Address.make, h]

/-- Witness for C3: the round trip applied at `(r, c) = (5, 703)`. -/
theorem C3_label_round_trip_witness :
    Address.make (.lab (colLetterCodes (703 : Int).toNat ++ natDecCodes (5 : Int).toNat)) false =
      .ok ⟨some 5, some 703, false⟩ :=
  (C3_label_round_trip 5 703 (by norm_num) (by norm_num)).2.2.1

/-- **C1** (code bug).  Applying `set_json` with the wire object
`{sheetId: 0, startRowIndex: 0, endRowIndex: 3, startColumnIndex: 0, endColumnIndex: 3}`
and then `to_json` does **not** reproduce the index set: the code emits
`startColumnIndex = 1` (it reads the start **row** and forgets the `- 1`)
and `endRowIndex = 2` (it subtracts 1 from an end index that `set_json`
treats as unshifted). -/
theorem C1_set_json_to_json_not_inverse :
    (gridRangeInit none none .noneV .noneV none none (some jsonRT)) >>= toJson =
      .ok ⟨some 0, some 0, some 2, some 1, some 3⟩ ∧
    (⟨some 0, some 0, some 2, some 1, some 3⟩ : RangeJson).startColumnIndex ≠
      jsonRT.startColumnIndex ∧
    (⟨some 0, some 0, some 2, some 1, some 3⟩ : RangeJson).endRowIndex ≠
      jsonRT.endRowIndex :=
  ⟨rfl, by decide, by decide⟩

/-- **C2** (code bug).  A zero coordinate is Python-falsy, so the `< 1`
bound check is skipped: `Address((0, 1))`, `Address((1, 0))` and
`Address("A1") - (0, 1)` all construct successfully instead of raising
`InvalidArgumentError`. -/
theorem C2_zero_coordinate_accepted :
    Address.make (.tup (some 0) (some 1)) false = .ok ⟨some 0, some 1, false⟩ ∧
    Address.make (.tup (some 1) (some 0)) false = .ok ⟨some 1, some 0, false⟩ ∧
    (Address.make (.lab (strCodes "A1")) false) >>= (fun a => a.subTup (0, 1)) =
      .ok ⟨some 1, some 0, false⟩ :=
  ⟨rfl, rfl, rfl⟩

/-- **C4** counterexample.  `GridRange(start=(1, None), end=(3, 3))` does
not raise: construction succeeds, with the column axis silently forced
unbound on both ends and the label set to `"!1:3"`. -/
theorem C4_mismatch_construction_succeeds :
    gridRangeInit none none (.tup (some 1) none) (.tup (some 3) (some 3)) none none none =
      .ok ⟨none, none, none, some (strCodes "!1:3"),
        ⟨some 1, none, true⟩, ⟨some 3, none, true⟩⟩ :=
  rfl

/-- **C5** (code bug).  On a worksheet with 100 rows and 26 columns, a fully
unbound range resolves through `get_bounded_indexes` to `((0, 0), (100, 26))`
— the start axes default to 0, not 1 — so `height = 101` and `width = 27`
instead of the documented 100 and 26. -/
theorem C5_bounded_indexes_default_zero :
    (gridRangeInit none (some wsSheet1) .noneV .noneV none none none) >>= getBoundedIndexes =
      .ok (⟨some 0, some 0, false⟩, ⟨some 100, some 26, false⟩) ∧
    (gridRangeInit none (some wsSheet1) .noneV .noneV none none none) >>= heightOf = .ok 101 ∧
    (gridRangeInit none (some wsSheet1) .noneV .noneV none none none) >>= widthOf = .ok 27 :=
  ⟨rfl, rfl, rfl⟩

/-- **C6** (confirmed).  `GridRange(start=(1,1), end=(3,3))` on a worksheet
titled "Sheet1" gets the label `"Sheet1!A1:C3"`, and constructing from the
label `"Sheet1!A1:C3"` recovers `start=(1,1)`, `end=(3,3)`. -/
theorem C6_label_coordinates_consistent :
    gridRangeInit none (some wsSheet1) (.tup (some 1) (some 1)) (.tup (some 3) (some 3))
        none none none =
      .ok ⟨some wsSheet1, none, none, some (strCodes "Sheet1!A1:C3"),
        ⟨some 1, some 1, true⟩, ⟨some 3, some 3, true⟩⟩ ∧
    gridRangeInit (some (strCodes "Sheet1!A1:C3")) none .noneV .noneV none none none =
      .ok ⟨none, some (strCodes "Sheet1"), none, some (strCodes "Sheet1!A1:C3"),
        ⟨some 1, some 1, true⟩, ⟨some 3, some 3, true⟩⟩ :=
  ⟨rfl, rfl⟩

/-- **C7** (code bug).  The unanchored regex parses a prefix instead of
rejecting: `Address("A1B2")` succeeds as `(1, 1)` (trailing `"B2"` is
ignored), and `Address("1A", allow_non_single=True)` succeeds as row 1
(trailing `"A"` ignored), instead of raising a label-format error. -/
theorem C7_prefix_parsed_not_rejected :
    Address.make (.lab (strCodes "A1B2")) false = .ok ⟨some 1, some 1, false⟩ ∧
    Address.make (.lab (strCodes "1A")) true = .ok ⟨some 1, none, true⟩ :=
  ⟨rfl, rfl⟩

/-- **C8** counterexample.  `GridRange(start=(3,3), end=(1,1))` fails with
an assertion failure (`AssertionError`), not with `InvalidArgumentError`. -/
theorem C8_start_after_end_is_assertion :
    gridRangeInit none none (.tup (some 3) (some 3)) (.tup (some 1) (some 1)) none none none =
      .error .assertionError ∧ Err.assertionError ≠ Err.invalidArgument :=
  ⟨rfl, by decide⟩

/-- **C10** (code bug).  With `allow_non_single` false, a missing column is
accepted — `Address((1, None))` succeeds because the unboundedness check
tests the row component twice and never the column — while `Address((None, 1))`
correctly raises `InvalidArgumentError`. -/
theorem C10_missing_column_accepted :
    Address.make (.tup (some 1) none) false = .ok ⟨some 1, none, false⟩ ∧
    Address.make (.tup none (some 1)) false = .error .invalidArgument :=
  ⟨rfl, rfl⟩

/-- **C8** amended.  Constructing a range whose ends are bound with
`start > end` on the row axis fails with an assertion failure (a bare
Python `assert`), not with `InvalidArgumentError`. -/
theorem C8_amended_assertion_error (r1 c1 r2 c2 : Int) (hr1 : 1 ≤ r1) (hc1 : 1 ≤ c1)
    (hr2 : 1 ≤ r2) (hc2 : 1 ≤ c2) (hlt : r2 < r1) :
    gridRangeInit none none (.tup (some r1) (some c1)) (.tup (some r2) (some c2))
      none none none = .error .assertionError := by
  have h1 : (r1 != 0) = true := bne_zero_of_pos hr1
  have h2 : (c1 != 0) = true := bne_zero_of_pos hc1
  have h3 : (r2 != 0) = true := bne_zero_of_pos hr2
  have h4 : (c2 != 0) = true := bne_zero_of_pos hc2
  simp only [gridRangeInit, make_tup_pos_pos hr1 hc1, make_tup_pos_pos hr2 hc2,
    bind_ok_eq, Option.getD_none, List.isEmpty_nil, if_true]
  simp only [applyIndexConstraintsE, applyIndexConstraints, Address.truthy,
    Option.isNone_some, Bool.and_false, Bool.false_and, Bool.and_true, Bool.not_false,
    Bool.not_true, Bool.false_or, Bool.or_false, truthyI_some, getI_some,
    h1, h2, h3, h4, Bool.and_self, if_false, Bool.true_and, Bool.and_false]
  rw [if_neg (by simp), if_neg (by simp [h1, h2, h3, h4]), if_pos]
  · rfl
  · simp [h1, h3, hlt]

/-- Witness for the amended C8 at `start=(3,3)`, `end=(1,1)`. -/
theorem C8_amended_assertion_error_witness :
    gridRangeInit none none (.tup (some 3) (some 3)) (.tup (some 1) (some 1))
      none none none = .error .assertionError :=
  C8_amended_assertion_error 3 3 1 1 (by norm_num) (by norm_num) (by norm_num)
    (by norm_num) (by norm_num)

/-- **C4** amended.  Constructing a `GridRange` whose start is bound and end
unbound on the column axis (such as `start=(r1, None)`, `end=(r2, c2)`) does
not raise: constraint propagation forces the column axis unbound on both
ends and construction succeeds.  (A mismatch raises `InvalidArgumentError`
only when it survives the single-axis normalization pass, as
`C4_amended_cross_mismatch_raises` shows on a cross-axis case.) -/
theorem calculateLabel_rows_only (r1 r2 : Int) (hr1 : 1 ≤ r1) (hr2 : 1 ≤ r2)
    (l : Option (List Nat)) :
    calculateLabel ⟨none, none, none, l, ⟨some r1, none, true⟩, ⟨some r2, none, true⟩⟩ =
      .ok ⟨none, none, none,
        some ([33] ++ natDecCodes r1.toNat ++ [58] ++ natDecCodes r2.toNat),
        ⟨some r1, none, true⟩, ⟨some r2, none, true⟩⟩ := by
  simp only [calculateLabel, worksheetTitle, Option.getD_none, Address.truthy,
    Option.isNone_some, Option.isNone_none, Bool.and_false, Bool.not_false,
    Bool.and_true, Bool.true_and, if_true]
  rw [valueAsLabel_pos_none hr1]
  simp only [bind_ok_eq]
  rw [valueAsLabel_pos_none hr2]
  simp

theorem C4_amended_normalizes_column_axis (r1 r2 c2 : Int) (hr1 : 1 ≤ r1)
    (hle : r1 ≤ r2) (hc2 : 1 ≤ c2) :
    gridRangeInit none none (.tup (some r1) none) (.tup (some r2) (some c2))
      none none none =
      .ok ⟨none, none, none,
        some ([33] ++ natDecCodes r1.toNat ++ [58] ++ natDecCodes r2.toNat),
        ⟨some r1, none, true⟩, ⟨some r2, none, true⟩⟩ := by
  have hr2 : 1 ≤ r2 := by omega
  have h1 : (r1 != 0) = true := bne_zero_of_pos hr1
  have h3 : (r2 != 0) = true := bne_zero_of_pos hr2
  have hnlt : ¬ r2 < r1 := by omega
  have hE : applyIndexConstraintsE
      ⟨none, none, none, none, ⟨some r1, none, true⟩, ⟨some r2, some c2, true⟩⟩ =
      .ok ⟨none, none, none,
        some ([33] ++ natDecCodes r1.toNat ++ [58] ++ natDecCodes r2.toNat),
        ⟨some r1, none, true⟩, ⟨some r2, none, true⟩⟩ := by
    simp only [applyIndexConstraintsE, applyIndexConstraints, Address.truthy,
      Option.isNone_some, Option.isNone_none, setCol, truthyI_some, truthyI_none,
      getI_some, h1, h3, Bool.and_false, Bool.false_and, Bool.and_true, Bool.true_and,
      Bool.not_true, Bool.not_false, Bool.false_or, Bool.or_false, Bool.or_true,
      if_false, if_true]
    rw [if_neg (by simp), if_neg (by simp [h1, h3]), if_neg (by simp [h1, hnlt]),
      if_neg (by simp)]
    simp only [show (false = true) = False from by simp, if_false]
    rw [calculateLabel_rows_only r1 r2 hr1 hr2]
  simp only [gridRangeInit, make_tup_pos_none hr1, make_tup_pos_pos hr2 hc2,
    bind_ok_eq, Option.getD_none, List.isEmpty_nil, if_true]
  rw [hE]
  simp only [bind_ok_eq]
  rw [calculateLabel_rows_only r1 r2 hr1 hr2]

/-- Companion to the amended C4: a boundedness mismatch that survives the
one-axis normalization (here `start=(None, 1)`, `end=(3, None)`) does raise
`InvalidArgumentError`. -/
theorem C4_amended_cross_mismatch_raises :
    gridRangeInit none none (.tup none (some 1)) (.tup (some 3) none) none none none =
      .error .invalidArgument :=
  rfl

/-- Witness for the amended C4 at `start=(1, None)`, `end=(3, 3)`. -/
theorem C4_amended_normalizes_column_axis_witness :
    gridRangeInit none none (.tup (some 1) none) (.tup (some 3) (some 3))
      none none none =
      .ok ⟨none, none, none,
        some ([33] ++ natDecCodes (1 : Int).toNat ++ [58] ++ natDecCodes (3 : Int).toNat),
        ⟨some 1, none, true⟩, ⟨some 3, none, true⟩⟩ :=
  C4_amended_normalizes_column_axis 1 3 3 (by norm_num) (by norm_num) (by norm_num)

theorem AddrOk.setRow_none {a : Address} (h : AddrOk a) : AddrOk (setRow a none) := by
  refine ⟨h.1, ?_, h.2.2⟩
  intro v hv
  simp [setRow] at hv

theorem AddrOk.setCol_none {a : Address} (h : AddrOk a) : AddrOk (setCol a none) := by
  refine ⟨h.1, h.2.1, ?_⟩
  intro v hv
  simp [setCol] at hv

/-- Validation succeeds on every address a `GridRange` can hold. -/
theorem validate_ok_of_addrOk {a : Address} (h : AddrOk a) : a.validate = .ok () := by
  obtain ⟨r, c, b⟩ := a
  obtain ⟨hb, hrow, hcol⟩ := h
  simp only at hb hrow hcol
  subst hb
  rcases r with _ | v
  · rcases c with _ | w
    · rfl
    · by_cases hw : w = 0
      · subst hw; rfl
      · have h1 : 1 ≤ w := by have := hcol w rfl; omega
        simp [Address.validate, bne_zero_of_pos h1, show ¬ w < 1 by omega]
  · by_cases hv : v = 0
    · subst hv
      rcases c with _ | w
      · rfl
      · by_cases hw : w = 0
        · subst hw; rfl
        · have h1 : 1 ≤ w := by have := hcol w rfl; omega
          simp [Address.validate, bne_zero_of_pos h1, show ¬ w < 1 by omega]
    · have h1 : 1 ≤ v := by have := hrow v rfl; omega
      rcases c with _ | w
      · exact validate_pos_none h1 true
      · by_cases hw : w = 0
        · subst hw
          simp [Address.validate, bne_zero_of_pos h1, show ¬ v < 1 by omega]
        · have h2 : 1 ≤ w := by have := hcol w rfl; omega
          exact validate_pos_pos h1 h2 true

theorem valueAsLabel_ok_of_addrOk {a : Address} (h : AddrOk a) :
    ∃ l, valueAsLabel a = .ok l := by
  unfold valueAsLabel
  rw [validate_ok_of_addrOk h]
  exact ⟨_, rfl⟩

/-- Recomputing the label cannot raise on a well-formed range. -/
theorem calculateLabel_ne_error {g : GridRange} (hs : AddrOk g.start)
    (he : AddrOk g.endA) (e : Err) : calculateLabel g ≠ .error e := by
  obtain ⟨ls, hls⟩ := valueAsLabel_ok_of_addrOk hs
  obtain ⟨le, hle⟩ := valueAsLabel_ok_of_addrOk he
  unfold calculateLabel
  by_cases h : (g.start.truthy && g.endA.truthy) = true
  · rw [if_pos h, hls]
    simp only [bind_ok_eq]
    rw [hle]
    simp
  · rw [if_neg h]
    simp

/-- The post-normalization tail of `_apply_index_constraints` (mismatch
check, ordering asserts, label recomputation), stated over an arbitrary
normalized range `g1`: if it reports `InvalidArgumentError`, the resulting
state has start = end. -/
theorem applyTail_collapse (g1 g' : GridRange) (hs1 : AddrOk g1.start)
    (he1 : AddrOk g1.endA)
    (h : (if (truthyI g1.start.row && !truthyI g1.endA.row) ||
       (!truthyI g1.start.row && truthyI g1.endA.row) ||
       (truthyI g1.start.col && !truthyI g1.endA.col) ||
       (!truthyI g1.start.col && truthyI g1.endA.col) then
      ({ g1 with start := g1.start, endA := g1.start }, some Err.invalidArgument)
    else if g1.start.truthy && g1.endA.truthy && truthyI g1.start.row &&
            getI g1.endA.row < getI g1.start.row then
      (g1, some Err.assertionError)
    else if g1.start.truthy && g1.endA.truthy && truthyI g1.start.col &&
            getI g1.endA.col < getI g1.start.col then
      (g1, some Err.assertionError)
    else
      match calculateLabel g1 with
      | .ok g2 => (g2, none)
      | .error e => (g1, some e)) = (g', some Err.invalidArgument)) :
    g'.start = g'.endA := by
  split at h
  · injection h with h1 h2
    subst h1
    rfl
  · split at h
    · injection h with h1 h2
      cases h2
    · split at h
      · injection h with h1 h2
        cases h2
      · split at h
        · injection h with h1 h2
          cases h2
        · rename_i e' heq
          injection h with h1 h2
          exact absurd heq (calculateLabel_ne_error hs1 he1 e')

/-- **C9** (confirmed).  Whenever `_apply_index_constraints` raises the
axis-mismatch `InvalidArgumentError` (posed on a well-formed range, i.e.
one whose addresses were built by the `GridRange` constructors), the range
has first been collapsed: its start and end are the same single Address. -/
theorem C9_collapse_before_raise (g g' : GridRange) (hs : AddrOk g.start)
    (he : AddrOk g.endA)
    (herr : applyIndexConstraints g = (g', some Err.invalidArgument)) :
    g'.start = g'.endA := by
  simp only [applyIndexConstraints] at herr
  split at herr
  · injection herr with h1 h2
    cases h2
  · refine applyTail_collapse _ g' ?_ ?_ herr
    · split
      · split
        · exact he
        · exact hs
      · split
        · exact AddrOk.setRow_none hs
        · split
          · exact AddrOk.setCol_none hs
          · exact hs
    · split
      · split
        · exact he
        · exact he
      · split
        · exact AddrOk.setRow_none he
        · split
          · exact AddrOk.setCol_none he
          · exact he

/-- Witness for C9: the cross-axis mismatch `start=(None, 1)`, `end=(3, None)`
takes the error path, and the resulting state has start = end. -/
theorem C9_collapse_before_raise_witness :
    applyIndexConstraints
        ⟨none, none, none, none, ⟨none, some 1, true⟩, ⟨some 3, none, true⟩⟩ =
      (⟨none, none, none, none, ⟨none, some 1, true⟩, ⟨none, some 1, true⟩⟩,
        some Err.invalidArgument) ∧
    (⟨none, none, none, none, ⟨none, some 1, true⟩,
        ⟨none, some 1, true⟩⟩ : GridRange).start =
      (⟨none, none, none, none, ⟨none, some 1, true⟩,
        ⟨none, some 1, true⟩⟩ : GridRange).endA :=
  ⟨rfl,
    C9_collapse_before_raise
      ⟨none, none, none, none, ⟨none, some 1, true⟩, ⟨some 3, none, true⟩⟩
      ⟨none, none, none, none, ⟨none, some 1, true⟩, ⟨none, some 1, true⟩⟩
      (by
        refine ⟨rfl, ?_, ?_⟩
        · intro v hv
          simp at hv
        · intro v hv
          simp at hv
          omega)
      (by
        refine ⟨rfl, ?_, ?_⟩
        · intro v hv
          simp at hv
          omega
        · intro v hv
          simp at hv)
      rfl⟩

end PyGSheets
